import Mathlib

/-!
Verification of the `multicast-events` node module (index.js) against its
specification.  The module maps logical event names to multicast (address,
port) pairs, manages one UDP receive socket per active event, and frames
emitted events with optional encryption and an optional plaintext origin tag.

The embedding below translates the source functions (`isMulticastAddress`,
`md5`, `generatePort`, the `EventEmitter` constructor, `getPort`,
`hasReceiver`, `hasListeners`, `hasEventWithPort`, `fullDefined`,
`addListener`, `removeListener`, `handleEvent`, the receive-socket message
callback, and `_emit`'s datagram construction) into executable Lean
definitions.  External npm/node dependencies (the AMP message codec and the
node `crypto` cipher) are modelled from the spec and marked as such.
-/

namespace MulticastEvents

/-! ## MD5 (the hash used by `md5(value)` in the source, per RFC 1321).
Words are `Nat` values kept below `2^32` by explicit reduction. -/

def m32 : Nat := 4294967296

/-- Bitwise complement within 32 bits. -/
def bnot32 (x : Nat) : Nat := (m32 - 1) ^^^ x

/-- Left-rotate a 32-bit word (input assumed `< 2^32`). -/
def rotl32 (x n : Nat) : Nat := ((x <<< n) % m32) ||| (x >>> (32 - n))

/-- Per-round shift amounts (RFC 1321). -/
def md5s : List Nat :=
  [7, 12, 17, 22, 7, 12, 17, 22, 7, 12, 17, 22, 7, 12, 17, 22,
   5, 9, 14, 20, 5, 9, 14, 20, 5, 9, 14, 20, 5, 9, 14, 20,
   4, 11, 16, 23, 4, 11, 16, 23, 4, 11, 16, 23, 4, 11, 16, 23,
   6, 10, 15, 21, 6, 10, 15, 21, 6, 10, 15, 21, 6, 10, 15, 21]

/-- Per-round additive constants `floor(abs(sin(i+1)) * 2^32)` (RFC 1321). -/
def md5K : List Nat :=
  [0xd76aa478, 0xe8c7b756, 0x242070db, 0xc1bdceee,
   0xf57c0faf, 0x4787c62a, 0xa8304613, 0xfd469501,
   0x698098d8, 0x8b44f7af, 0xffff5bb1, 0x895cd7be,
   0x6b901122, 0xfd987193, 0xa679438e, 0x49b40821,
   0xf61e2562, 0xc040b340, 0x265e5a51, 0xe9b6c7aa,
   0xd62f105d, 0x02441453, 0xd8a1e681, 0xe7d3fbc8,
   0x21e1cde6, 0xc33707d6, 0xf4d50d87, 0x455a14ed,
   0xa9e3e905, 0xfcefa3f8, 0x676f02d9, 0x8d2a4c8a,
   0xfffa3942, 0x8771f681, 0x6d9d6122, 0xfde5380c,
   0xa4beea44, 0x4bdecfa9, 0xf6bb4b60, 0xbebfbc70,
   0x289b7ec6, 0xeaa127fa, 0xd4ef3085, 0x04881d05,
   0xd9d4d039, 0xe6db99e5, 0x1fa27cf8, 0xc4ac5665,
   0xf4292244, 0x432aff97, 0xab9423a7, 0xfc93a039,
   0x655b59c3, 0x8f0ccc92, 0xffeff47d, 0x85845dd1,
   0x6fa87e4f, 0xfe2ce6e0, 0xa3014314, 0x4e0811a1,
   0xf7537e82, 0xbd3af235, 0x2ad7d2bb, 0xeb86d391]

/-- One MD5 round applied to the running state `(a, b, c, d)` with message
words `w` at round index `i`. -/
def md5Round (w : List Nat) (st : Nat × Nat × Nat × Nat) (i : Nat) :
    Nat × Nat × Nat × Nat :=
  let (a, b, c, d) := st
  let (f, g) :=
    if i < 16 then ((b &&& c) ||| (bnot32 b &&& d), i)
    else if i < 32 then ((d &&& b) ||| (bnot32 d &&& c), (5 * i + 1) % 16)
    else if i < 48 then (b ^^^ c ^^^ d, (3 * i + 5) % 16)
    else (c ^^^ (b ||| bnot32 d), (7 * i) % 16)
  let f := (f + a + md5K.getD i 0 + w.getD g 0) % m32
  (d, (b + rotl32 f (md5s.getD i 0)) % m32, b, c)

/-- Process one 64-byte chunk: convert to 16 little-endian words, run the 64
rounds, add the result into the state modulo `2^32`. -/
def md5Chunk (st : Nat × Nat × Nat × Nat) (chunk : List Nat) :
    Nat × Nat × Nat × Nat :=
  let w := (List.range 16).map fun j =>
    chunk.getD (4 * j) 0 + 256 * chunk.getD (4 * j + 1) 0 +
      65536 * chunk.getD (4 * j + 2) 0 + 16777216 * chunk.getD (4 * j + 3) 0
  let (a0, b0, c0, d0) := st
  let (a, b, c, d) := (List.range 64).foldl (md5Round w) (a0, b0, c0, d0)
  ((a0 + a) % m32, (b0 + b) % m32, (c0 + c) % m32, (d0 + d) % m32)

/-- 8-byte little-endian encoding of a (bit-)length value. -/
def le8 (n : Nat) : List Nat :=
  [n % 256, n / 256 % 256, n / 65536 % 256, n / 16777216 % 256,
   n / 4294967296 % 256, n / 1099511627776 % 256,
   n / 281474976710656 % 256, n / 72057594037927936 % 256]

/-- MD5 padding: `0x80`, zeros to 56 mod 64, then the 64-bit bit length. -/
def md5Pad (msg : List Nat) : List Nat :=
  let len := msg.length
  let padLen := (119 - len % 64) % 64
  msg ++ [128] ++ List.replicate padLen 0 ++ le8 (len * 8)

/-- Split a byte list into 64-byte chunks (structural recursion on a fuel
bound so that the definition reduces inside the kernel). -/
def chunks64Aux : Nat → List Nat → List (List Nat)
  | 0, _ => []
  | fuel + 1, l => if l.isEmpty then [] else l.take 64 :: chunks64Aux fuel (l.drop 64)

/-- Split a (64-divisible) byte list into 64-byte chunks. -/
def chunks64 (l : List Nat) : List (List Nat) := chunks64Aux l.length l

/-- The four 32-bit state words of the MD5 digest of a byte sequence. -/
def md5Words (msg : List Nat) : Nat × Nat × Nat × Nat :=
  (chunks64 (md5Pad msg)).foldl md5Chunk
    (0x67452301, 0xefcdab89, 0x98badcfe, 0x10325476)

/-- 4-byte little-endian encoding of a 32-bit word. -/
def le4 (n : Nat) : List Nat :=
  [n % 256, n / 256 % 256, n / 65536 % 256, n / 16777216 % 256]

/-- The 16 digest bytes of MD5 (what `hash.digest('binary')` exposes via
`charCodeAt`). -/
def md5Bytes (msg : List Nat) : List Nat :=
  let (a, b, c, d) := md5Words msg
  le4 a ++ le4 b ++ le4 c ++ le4 d

/-! ## UTF-8 (node hashes and buffers encode strings as UTF-8). -/

/-- UTF-8 encoding of one character. -/
def utf8Char (c : Char) : List Nat :=
  let n := c.toNat
  if n < 128 then [n]
  else if n < 2048 then [192 + n / 64, 128 + n % 64]
  else if n < 65536 then [224 + n / 4096, 128 + n / 64 % 64, 128 + n % 64]
  else [240 + n / 262144, 128 + n / 4096 % 64, 128 + n / 64 % 64, 128 + n % 64]

/-- UTF-8 encoding of a string. -/
def utf8Bytes (s : String) : List Nat := s.data.flatMap utf8Char

/-- `md5(value)` from the source: MD5 digest bytes of the UTF-8 form of a
string (`charCodeAt i` on the binary digest string is `md5Str s |>.getD i 0`). -/
def md5Str (s : String) : List Nat := md5Bytes (utf8Bytes s)

/-! ## `isMulticastAddress` (source lines 284-287).
The source tests the **unanchored** JS regex
`/2(?:2[4-9]|3\d)(?:\.(?:25[0-5]|2[0-4]\d|1\d\d|[1-9]\d?|0)){3}/g` with
`re.test(ip)`, so a match anywhere inside the string counts. -/

/-- The lengths by which the regex octet group
`25[0-5]|2[0-4]\d|1\d\d|[1-9]\d?|0` can match a prefix of `cs`. -/
def octetLens (cs : List Char) : List Nat :=
  (match cs with
   | c1 :: c2 :: c3 :: _ =>
     if (c1 = '2' ∧ c2 = '5' ∧ '0' ≤ c3 ∧ c3 ≤ '5') ∨
        (c1 = '2' ∧ '0' ≤ c2 ∧ c2 ≤ '4' ∧ c3.isDigit) ∨
        (c1 = '1' ∧ c2.isDigit ∧ c3.isDigit) then [3] else []
   | _ => []) ++
  (match cs with
   | c1 :: c2 :: _ => if '1' ≤ c1 ∧ c1 ≤ '9' ∧ c2.isDigit then [2] else []
   | _ => []) ++
  (match cs with
   | c1 :: _ => if ('1' ≤ c1 ∧ c1 ≤ '9') ∨ c1 = '0' then [1] else []
   | _ => [])

/-- `(?:\.(octet)){k}` matched against a prefix of `cs` (any backtracking
choice counts, which is what existence of a regex match means). -/
def matchDotOctets : Nat → List Char → Bool
  | 0, _ => true
  | k + 1, cs =>
    match cs with
    | '.' :: rest => (octetLens rest).any fun n => matchDotOctets k (rest.drop n)
    | _ => false

/-- The first-octet part `2(?:2[4-9]|3\d)` matched against a prefix of `cs`
(always exactly three characters, the decimal forms of 224-239). -/
def matchHead : List Char → Bool
  | '2' :: '2' :: c :: _ => decide ('4' ≤ c ∧ c ≤ '9')
  | '2' :: '3' :: c :: _ => c.isDigit
  | _ => false

/-- `isMulticastAddress(ip)` from the source: unanchored substring test of
the multicast-address regex. -/
def isMulticastAddress (ip : String) : Bool :=
  (List.range (ip.data.length + 1)).any fun i =>
    let cs := ip.data.drop i
    matchHead cs && matchDotOctets 3 (cs.drop 3)

/-- Decimal value of a digit list. -/
def decValue (cs : List Char) : Nat := cs.foldl (fun a c => 10 * a + (c.toNat - 48)) 0

/-- Canonical decimal representation of a number in `[lo, hi]`: nonempty, all
digits, no leading zero (except "0" itself). -/
def isCanonDec (s : String) (lo hi : Nat) : Bool :=
  let cs := s.data
  !cs.isEmpty && cs.all Char.isDigit && (cs == ['0'] || !(cs.head? == some '0')) &&
    decide (lo ≤ decValue cs) && decide (decValue cs ≤ hi)

/-- Split a character list on `'.'` (the groups between dots, in order). -/
def splitOnDot : List Char → List (List Char)
  | [] => [[]]
  | c :: rest =>
    if c = '.' then [] :: splitOnDot rest
    else match splitOnDot rest with
      | g :: gs => (c :: g) :: gs
      | [] => [[c]]

/-- Modelled from the spec: "matches the multicast-address syntax (first
octet in 224-239, remaining octets 0-255)" as a whole-string property — the
string is exactly `a.b.c.d` with canonical decimal octets, `224 ≤ a ≤ 239`
and `b, c, d ≤ 255`.  (The spec's anchored notion of a syntactically valid
multicast address; the source's check above is unanchored.) -/
def specIsMulticastAddress (s : String) : Bool :=
  match splitOnDot s.data with
  | [a, b, c, d] =>
      isCanonDec (String.mk a) 224 239 && isCanonDec (String.mk b) 0 255 &&
        isCanonDec (String.mk c) 0 255 && isCanonDec (String.mk d) 0 255
  | _ => false

/-! ## Data model: errors, socket actions, channels, the emitter. -/

deriving instance DecidableEq for Except

/-- The distinct `throw new Error(...)` sites of the source. -/
inductive Err where
  | configTtl
  | configInterface
  | configForeignOnly
  | configOctet
  | configPort
  | missingArgument
  | portCollision (event owner : String)
  | protocolMismatch (expected got : String)
  | formatError
  | typeError
deriving DecidableEq, Repr

/-- Observable socket operations performed by the registry (receive-socket
bind, TTL, multicast membership join/leave, loopback flag, close). -/
inductive Action where
  | bindSock (port : Nat) (addr : String)
  | setTTL (n : Nat)
  | addMembership (addr iface : String)
  | setLoopback (b : Bool)
  | dropMembership (addr iface : String)
  | closeSock
deriving DecidableEq, Repr

/-- One per-event channel: the receive socket (`socketOpen` models the
socket handle's state; it is opened when the channel is created) and the
ordered handler list.  Handlers are identified by their definition string,
which is exactly the identity `removeListener` compares
(`handlers[i].toString() === listener.toString()`). -/
structure Channel where
  socketOpen : Bool
  handlers : List String
deriving DecidableEq, Repr

/-- The `EventEmitter` instance state.  `iface` is the source's
`this.interface`; the empty string models an unset (falsy) value, matching
JS truthiness on the option strings.  `events` and `listeners` are
insertion-ordered association lists mirroring JS object property order for
the non-numeric keys the module uses. -/
structure Emitter where
  name : String
  id : String
  secret : String
  cipher : String
  ttl : Nat
  iface : String
  loopback : Bool
  foreignOnly : Bool
  octet : Nat
  port : Nat
  group : String
  address : String
  events : List (String × Nat)
  listeners : List (String × Channel)
deriving DecidableEq, Repr

/-- Constructor options.  For the numeric options `0` models a falsy/absent
value: JS evaluates `opts.ttl || 64` the same way for `undefined` and `0`,
and likewise for `octet` and `port`. -/
structure Opts where
  name : String := ""
  id : String := ""
  secret : String := ""
  cipher : String := ""
  ttl : Nat := 0
  iface : String := ""
  loopback : Option Bool := none
  foreignOnly : Option Bool := none
  octet : Nat := 0
  port : Nat := 0
  group : String := ""
  events : List (String × Nat) := []

/-- The derived multicast address octets when the group is not (regex-)
recognised as a multicast address (source lines 433-438): `[octet, h0, h1,
h2']` where `h` is the md5 digest of the group and digest byte index 2 is
replaced by 1 when it equals 0 or 255. -/
def deriveOctets (group : String) (octet : Nat) : List Nat :=
  let h := md5Str group
  [octet, h.getD 0 0, h.getD 1 0,
   if h.getD 2 0 = 0 ∨ h.getD 2 0 = 255 then 1 else h.getD 2 0]

/-- The address assigned by the constructor (source lines 430-439): the group
verbatim when `isMulticastAddress` accepts it, otherwise the derived octets
joined with dots. -/
def addressOf (group : String) (octet : Nat) : String :=
  if isMulticastAddress group then group
  else String.intercalate "." ((deriveOctets group octet).map (fun n => toString n))

/-- The `EventEmitter` constructor (source lines 387-459).  `nics` models the
out-of-scope `verifyAddress` NIC enumeration as a boolean predicate on
addresses; `counter` models the global `emitterCounter` used only for the
debug name.  The shared send socket's asynchronous bind performs no registry
mutation and is not tracked. -/
def mkEmitter (nics : String → Bool) (counter : Nat) (o : Opts) : Except Err Emitter :=
  let name := if o.name = "" then "emitter #" ++ toString counter else o.name
  let id := if o.id = "" then "default" else o.id
  let cipher := if o.cipher = "" then "aes256" else o.cipher
  let ttl := if o.ttl = 0 then 64 else o.ttl
  if ttl < 1 ∨ 255 < ttl then .error .configTtl
  else if o.iface ≠ "" ∧ ¬ nics o.iface then .error .configInterface
  else
    -- `opts.loopback === undefined || this.loopback === null`: the second
    -- disjunct compares the still-undefined `this.loopback` with `null` and
    -- is always false, so only the first disjunct decides; same for
    -- `foreignOnly`.
    let loopback : Bool := match o.loopback with | none => true | some b => b
    let foreignOnly : Bool := match o.foreignOnly with | none => false | some b => b
    if !loopback && foreignOnly then .error .configForeignOnly
    else
      let octet := if o.octet = 0 then 239 else o.octet
      if octet < 224 ∨ 239 < octet then .error .configOctet
      else
        let port := if o.port = 0 then 1967 else o.port
        if port < 1024 ∨ 16384 < port then .error .configPort
        else
          let group := if o.group = "" then "events" else o.group
          .ok { name := name, id := id, secret := o.secret, cipher := cipher,
                ttl := ttl, iface := o.iface, loopback := loopback,
                foreignOnly := foreignOnly, octet := octet, port := port,
                group := group, address := addressOf group octet,
                events := o.events, listeners := [] }

/-! ## Port derivation and registry queries. -/

/-- `generatePort(event)` (source lines 337-341): base port plus digest byte
15 plus 256 times (digest byte 14 mod 128) of
`md5(id + "::" + group + "::" + event)` (`hash.charCodeAt(hash.length - 1)`
and `hash.charCodeAt(hash.length - 2)` on the 16-byte binary digest). -/
def generatePort (e : Emitter) (event : String) : Nat :=
  let hash := md5Str (e.id ++ "::" ++ e.group ++ "::" ++ event)
  e.port + hash.getD 15 0 + 256 * (hash.getD 14 0 % 128)

/-- `getPort(event)` (source lines 478-487): throws without an event; returns
the override/cached entry when present; otherwise derives, caches and
returns.  Returns the (possibly extended) emitter state alongside the port
because the cache write `this.events[event] = ...` persists. -/
def getPort (e : Emitter) (event : String) : Except Err (Nat × Emitter) :=
  if event = "" then .error .missingArgument
  else
    match e.events.lookup event with
    | some p => .ok (p, e)
    | none =>
        let p := generatePort e event
        .ok (p, { e with events := e.events ++ [(event, p)] })

/-- The boolean body of `hasReceiver(event)` (source lines 495-501): the
listeners registry has the event, and the entry has its `receiver` property
(always present on channels the module creates). -/
def hasReceiverB (e : Emitter) (event : String) : Bool :=
  (e.listeners.lookup event).isSome

/-- `hasReceiver(event)` including its missing-event guard. -/
def hasReceiver (e : Emitter) (event : String) : Except Err Bool :=
  if event = "" then .error .missingArgument else .ok (hasReceiverB e event)

/-- The boolean body of `hasListeners(event)` (source lines 508-516): the
registry has the event, the entry has `receiver` and `handlers` (always true
for channels the module creates) and the handler list is non-empty. -/
def hasListenersB (e : Emitter) (event : String) : Bool :=
  match e.listeners.lookup event with
  | some ch => decide (0 < ch.handlers.length)
  | none => false

/-- `hasListeners(event)` including its missing-event guard. -/
def hasListeners (e : Emitter) (event : String) : Except Err Bool :=
  if event = "" then .error .missingArgument else .ok (hasListenersB e event)

/-- `hasEventWithPort(event, port)` (source lines 525-538): when `port` is
falsy (absent or 0) derive it from the event, then return the first event
name in the insertion-ordered events table owning that port. -/
def hasEventWithPort (e : Emitter) (event : String) (port : Option Nat) :
    Option String :=
  let p := match port with
    | some q => if q = 0 then generatePort e event else q
    | none => generatePort e event
  (e.events.find? (fun kv => kv.2 == p)).map (fun kv => kv.1)

/-- `fullDefined(event, port)` (source lines 547-552): only when the queried
event itself has a receiver and at least one listener, look up which event
owns the port; otherwise `null`. -/
def fullDefined (e : Emitter) (event : String) (port : Option Nat) :
    Except Err (Option String) := do
  let hr ← hasReceiver e event
  if hr then
    let hl ← hasListeners e event
    if hl then pure (hasEventWithPort e event port) else pure none
  else pure none

/-! ## Registry mutation: `addListener` and `removeListener`.
JS exceptions do not roll back mutations already made to `this`, so mutating
operations return the (possibly changed) emitter together with the socket
actions performed and an optional error. -/

/-- Result of a mutating registry operation. -/
structure OpOut where
  emitter : Emitter
  acts : List Action
  err : Option Err
deriving DecidableEq, Repr

/-- Replace the handler list of the first channel entry for `event`. -/
def setHandlers : List (String × Channel) → String → List String →
    List (String × Channel)
  | [], _, _ => []
  | (k, ch) :: rest, event, hs =>
    if k = event then (k, { ch with handlers := hs }) :: rest
    else (k, ch) :: setHandlers rest event hs

/-- Remove the first channel entry for `event` (`delete this.listeners[event]`). -/
def eraseCh : List (String × Channel) → String → List (String × Channel)
  | [], _ => []
  | (k, ch) :: rest, event =>
    if k = event then rest else (k, ch) :: eraseCh rest event

/-- `addListener(event, listener)` (source lines 561-607).
First `fullDefined(event, this.events[event])` (which throws on an empty
event name via `hasReceiver`); a non-null result different from `event`
throws the port-collision error (whose message evaluates `this.getPort(event)`
first, so its cache write persists).  Otherwise, when the event has no
receiver yet, create the channel with an empty handler list, bind the new
socket to `(getPort(event), address)` and — in the bind callback — set the
TTL, join the multicast group on the configured interface and set multicast
loopback.  Finally push the listener. -/
def addListener (e : Emitter) (event listener : String) : OpOut :=
  match fullDefined e event (e.events.lookup event) with
  | .error er => ⟨e, [], some er⟩
  | .ok definedEvent =>
    match definedEvent with
    | some d =>
      if d ≠ event then
        match getPort e event with
        | .ok (_, e1) => ⟨e1, [], some (.portCollision event d)⟩
        | .error er => ⟨e, [], some er⟩
      else addListenerTail e event listener
    | none => addListenerTail e event listener
where
  /-- The part after the collision check: lazy channel creation plus the
  handler push. -/
  addListenerTail (e : Emitter) (event listener : String) : OpOut :=
    if hasReceiverB e event then
      match e.listeners.lookup event with
      | some ch =>
        ⟨{ e with listeners := setHandlers e.listeners event (ch.handlers ++ [listener]) },
          [], none⟩
      | none => ⟨e, [], none⟩
    else
      let e1 := { e with listeners := e.listeners ++ [(event, ⟨true, []⟩)] }
      match getPort e1 event with
      | .error er => ⟨e1, [], some er⟩
      | .ok (p, e2) =>
        let acts := [Action.bindSock p e2.address, Action.setTTL e2.ttl,
                     Action.addMembership e2.address e2.iface,
                     Action.setLoopback e2.loopback]
        match e2.listeners.lookup event with
        | some ch =>
          ⟨{ e2 with listeners := setHandlers e2.listeners event (ch.handlers ++ [listener]) },
            acts, none⟩
        | none => ⟨e2, [], none⟩

/-- `handlers.splice(i, 1)` at index `i`. -/
def splice (l : List String) (i : Nat) : List String := l.take i ++ l.drop (i + 1)

/-- The `removeListener` loop (source lines 648-661): iterate `i` from the
end of the handler list down to 0, splicing out every entry whose definition
string equals the listener's.  `removeLoop l hs (i+1)` performs the
iterations that examine indices `i, i-1, ..., 0`. -/
def removeLoop (listener : String) : List String → Nat → List String
  | hs, 0 => hs
  | hs, i + 1 => if hs.getD i "" = listener
      then removeLoop listener (splice hs i) i
      else removeLoop listener hs i

/-- `removeListener(event, listener)` (source lines 641-667).  Throws without
an event or listener (a listener is a JS function and functions are always
truthy, so only the event can fail the `event && listener` guard).  When the
event has listeners, run the splice loop; if the handler list has become
empty the channel's socket leaves the multicast group, is closed, and the
channel is deleted.  (The source performs the drop/close/delete inside the
loop at the moment the list empties; the list can only become empty at loop
index 0, so doing it after the loop is the same.) -/
def removeListener (e : Emitter) (event listener : String) : OpOut :=
  if event = "" then ⟨e, [], some .missingArgument⟩
  else if hasListenersB e event then
    match e.listeners.lookup event with
    | some ch =>
      let hs := removeLoop listener ch.handlers ch.handlers.length
      if hs.isEmpty then
        ⟨{ e with listeners := eraseCh e.listeners event },
          [Action.dropMembership e.address e.iface, Action.closeSock], none⟩
      else ⟨{ e with listeners := setHandlers e.listeners event hs }, [], none⟩
    | none => ⟨e, [], none⟩
  else ⟨e, [], none⟩

/-! ## Wire codec.
The payload encoding is the external `amp-message` package (not part of this
repository).  Modelled from the spec: `encode(eventName, args[])` serializes
the ordered list `[eventName, ...args]` into a single self-describing,
length-prefixed binary payload, exactly invertible by `decode`, which fails
on bytes that are not a well-formed payload.  Arguments are modelled as
strings. -/

/-- Little-endian base-128 varint encoding (fuel-structural so it reduces in
the kernel; `n` itself always suffices as fuel because the value shrinks by
a factor of 128 every byte). -/
def natVarAux : Nat → Nat → List Nat
  | 0, n => [n % 128]
  | fuel + 1, n => if n < 128 then [n] else (n % 128 + 128) :: natVarAux fuel (n / 128)

/-- Varint encoding of a natural number. -/
def natVar (n : Nat) : List Nat := natVarAux n n

/-- Varint decoding: the value and the remaining bytes. -/
def readVar : List Nat → Option (Nat × List Nat)
  | [] => none
  | b :: rest =>
    if b < 128 then some (b, rest)
    else
      match readVar rest with
      | some (n, r) => some (b - 128 + 128 * n, r)
      | none => none

/-- Modelled from the spec: encode one string item (character count, then
each character's code point, all as varints). -/
def packStr (s : String) : List Nat :=
  natVar s.data.length ++ s.data.flatMap (fun c => natVar c.toNat)

/-- Modelled from the spec: `encode` of an ordered argument list
(`msgpack.pack` over the AMP message in the source): item count then the
items. -/
def pack (args : List String) : List Nat :=
  natVar args.length ++ args.flatMap packStr

/-- Read `k` character code points. -/
def readChars : Nat → List Nat → Option (List Char × List Nat)
  | 0, bs => some ([], bs)
  | k + 1, bs =>
    match readVar bs with
    | some (n, r) =>
      match readChars k r with
      | some (cs, r') => some (Char.ofNat n :: cs, r')
      | none => none
    | none => none

/-- Read one string item. -/
def readStr (bs : List Nat) : Option (String × List Nat) :=
  match readVar bs with
  | some (k, r) =>
    match readChars k r with
    | some (cs, r') => some (String.mk cs, r')
    | none => none
  | none => none

/-- Read `k` string items. -/
def readStrs : Nat → List Nat → Option (List String × List Nat)
  | 0, bs => some ([], bs)
  | k + 1, bs =>
    match readStr bs with
    | some (s, r) =>
      match readStrs k r with
      | some (ss, r') => some (s :: ss, r')
      | none => none
    | none => none

/-- Modelled from the spec: `decode` (`msgpack.unpack` in the source),
inverse of `pack`; `none` models the FormatError on malformed payloads. -/
def unpack (bs : List Nat) : Option (List String) :=
  match readVar bs with
  | some (k, r) =>
    match readStrs k r with
    | some (ss, rest) => if rest.isEmpty then some ss else none
    | none => none
  | none => none

/-! ## Cipher.
`crypto.createCipher`/`crypto.createDecipher` are node built-ins, not part of
this repository.  Modelled from the spec: a symmetric cipher whose key
stream is derived from the secret (and cipher identifier), with
`removeCipher` its exact inverse.  The conditional wrappers `encrypt` and
`decrypt` below are the source's (lines 301-323). -/

/-- Key stream byte `i` for a secret/cipher pair. -/
def keyByte (secret cipher : String) (i : Nat) : Nat :=
  (md5Str (cipher ++ "::" ++ secret)).getD (i % 16) 0

/-- Modelled from the spec: the symmetric cipher primitive — XOR of each
byte with the keyed stream. -/
def cipherStream (secret cipher : String) : Nat → List Nat → List Nat
  | _, [] => []
  | i, b :: rest => (b ^^^ keyByte secret cipher i) :: cipherStream secret cipher (i + 1) rest

/-- `encrypt(message)` (source lines 301-308): apply the cipher only when
both `this.cipher` and `this.secret` are truthy, else pass through. -/
def encrypt (secret cipher : String) (message : List Nat) : List Nat :=
  if cipher ≠ "" ∧ secret ≠ "" then cipherStream secret cipher 0 message
  else message

/-- `decrypt(message)` (source lines 316-323): inverse of `encrypt` under the
same condition (XOR stream is its own inverse). -/
def decrypt (secret cipher : String) (message : List Nat) : List Nat :=
  if cipher ≠ "" ∧ secret ≠ "" then cipherStream secret cipher 0 message
  else message

/-! ## The emit datagram and the receive path. -/

/-- One handler invocation: which handler is called and with which decoded
arguments (passed positionally). -/
structure Call where
  handler : String
  args : List String
deriving DecidableEq, Repr

/-- The datagram body `_emit` sends (source lines 697-711): pack the
`[event, ...args]` list, encrypt, and — only when `foreignOnly` is set —
prepend the plaintext origin tag `'@' ++ decimal pid ++ ':'`. -/
def emitData (e : Emitter) (selfPid : Nat) (event : String) (args : List String) :
    List Nat :=
  let message := pack (event :: args)
  let encryptedMessage := encrypt e.secret e.cipher message
  if e.foreignOnly then (64 :: utf8Bytes (toString selfPid) ++ [58]) ++ encryptedMessage
  else encryptedMessage

/-- Leading decimal digits of a byte list, if it starts with a digit. -/
def digitsVal (bs : List Nat) : Option Nat :=
  match bs with
  | b :: _ =>
    if 48 ≤ b ∧ b ≤ 57 then
      some ((bs.takeWhile (fun d => 48 ≤ d ∧ d ≤ 57)).foldl (fun a d => 10 * a + (d - 48)) 0)
    else none
  | [] => none

/-- `parseInt(buf.toString(), 10)`: skip ASCII whitespace, optional sign,
then the leading decimal digits; `none` models `NaN`. -/
def parseIntDec (bs : List Nat) : Option Int :=
  let bs := bs.dropWhile (fun b => b = 32 ∨ b = 9 ∨ b = 10 ∨ b = 13)
  match bs with
  | 45 :: rest => (digitsVal rest).map (fun n => -(n : Int))
  | 43 :: rest => (digitsVal rest).map (fun n => (n : Int))
  | rest => (digitsVal rest).map (fun n => (n : Int))

/-- `handleEvent(event, msg, rinfo)` (source lines 325-335): unpack, shift the
event name off the argument list, throw when it differs from the channel's
event, otherwise call every registered handler in order with the remaining
arguments.  `Err.formatError` models `msgpack.unpack` throwing on a malformed
payload; `Err.typeError` models the runtime error of reading `.handlers` of a
missing registry entry; shifting an empty list yields `undefined`, which is
never equal to the (string) event, so it throws the mismatch error with an
empty name. -/
def handleEvent (e : Emitter) (event : String) (msg : List Nat) :
    Except Err (List Call) :=
  match unpack msg with
  | none => .error .formatError
  | some data =>
    match data with
    | [] => .error (.protocolMismatch event "")
    | msgEvent :: rest =>
      if event = msgEvent then
        match e.listeners.lookup event with
        | some ch => .ok (ch.handlers.map (fun h => ⟨h, rest⟩))
        | none => .error .typeError
      else .error (.protocolMismatch event msgEvent)

/-- The receive socket's `message` callback (source lines 576-596).
`processMessage` is the closure variable declared **outside** the callback
(line 576), so its value persists from one datagram to the next; the
returned `Bool` is its new value.  When the first byte is `'@'` (64) and a
`':'` (58) occurs at an index greater than 1, the bytes in between are
parsed as the sender's pid, the tag is stripped, and the flag becomes
"pid differs from ours" (a `NaN` parse compares unequal).  The datagram is
then decrypted and dispatched only when the flag is set. -/
def onMessage (selfPid : Nat) (e : Emitter) (event : String)
    (processMessage : Bool) (msg : List Nat) :
    Bool × Option (Except Err (List Call)) :=
  let (pm, m) :=
    if msg.head? = some 64 then
      match msg.findIdx? (fun b => b == 58) with
      | some idx =>
        if 1 < idx then
          let pid := parseIntDec ((msg.drop 1).take (idx - 1))
          let stripped := msg.drop (idx + 1)
          (match pid with
           | some p => decide ((selfPid : Int) ≠ p)
           | none => true, stripped)
        else (processMessage, msg)
      | none => (processMessage, msg)
    else (processMessage, msg)
  if pm then (pm, some (handleEvent e event (decrypt e.secret e.cipher m)))
  else (pm, none)

/-! ## Concrete emitter instances used by the theorems below. -/

/-- The emitter produced by `new EventEmitter()` with all defaults (the
address is the md5-derived group address shown in the README). -/
def eDefault : Emitter :=
  { name := "emitter #0", id := "default", secret := "", cipher := "aes256",
    ttl := 64, iface := "", loopback := true, foreignOnly := false,
    octet := 239, port := 1967, group := "events", address := "239.22.144.139",
    events := [], listeners := [] }

/-- A default emitter with a single explicit port override `ev -> 2000`. -/
def eOv : Emitter := { eDefault with events := [("ev", 2000)] }

/-- The default-constructed emitter with only the debug name overridden. -/
def eDefA : Emitter := { eDefault with name := "A" }

/-- The default-constructed emitter with group `"g257"`: md5("g257") has
digest bytes 242, 0, 139, so the derived address has third octet 0. -/
def eC4 : Emitter :=
  { name := "emitter #0", id := "default", secret := "", cipher := "aes256",
    ttl := 64, iface := "", loopback := true, foreignOnly := false,
    octet := 239, port := 1967, group := "g257", address := "239.242.0.139",
    events := [], listeners := [] }

/-- A default emitter whose events table caches the README port of
`event-name`. -/
def eC5cached : Emitter := { eDefault with events := [("event-name", 30618)] }

/-- A default emitter with two handlers registered for `"test"`. -/
def eC8 : Emitter := { eDefault with listeners := [("test", ⟨true, ["h1", "h2"]⟩)] }

/-- The default emitter with `foreignOnly` enabled. -/
def eC3base : Emitter := { eDefault with foreignOnly := true }

/-- `eC3base` after `addListener('test', h1)`: one bound channel and the
cached derived port for `"test"`. -/
def eC3 : Emitter :=
  { eC3base with
      events := [("test", 27634)],
      listeners := [("test", ⟨true, ["h1"]⟩)] }

/-- Constructor options with two distinct events overridden to one port. -/
def optsC1 : Opts := { events := [("a", 2000), ("b", 2000)] }

/-- The emitter constructed from `optsC1`. -/
def eC1 : Emitter := { eDefault with events := [("a", 2000), ("b", 2000)] }

/-- `eOv` with the channel for `"ev"` holding handlers `h, g, h` — two of
which are textually equal to `h`. -/
def eC7w : Emitter := { eOv with listeners := [("ev", ⟨true, ["h", "g", "h"]⟩)] }

/-- One channel is well-formed: a non-empty handler list and an open receive
socket. -/
def chOk (ch : Channel) : Bool := !ch.handlers.isEmpty && ch.socketOpen

/-- The §3 Channel invariant over the whole registry: every channel present
has a non-empty handler list and an open receive socket.  (The converse
directions of the claim's "iff" are structural: a handler list and a
receive socket exist only inside a registry entry.) -/
def goodStateB (e : Emitter) : Bool := e.listeners.all (fun p => chOk p.2)

/-! ## Helper lemmas on the registry structures. -/

theorem lookup_append_none {β : Type} (l : List (String × β)) (k : String) (v : β)
    (h : l.lookup k = none) : (l ++ [(k, v)]).lookup k = some v := by
  induction l with
  | nil => simp [List.lookup]
  | cons p rest ih =>
    rcases p with ⟨a, b⟩
    by_cases hk : (k == a) = true
    · simp only [List.lookup, hk] at h
      exact Option.noConfusion h
    · rw [Bool.not_eq_true] at hk
      simp only [List.cons_append, List.lookup, hk] at h ⊢
      exact ih h

theorem all_lookup_val {β : Type} (P : β → Bool) (l : List (String × β)) (k : String)
    (v : β) (ha : l.all (fun p => P p.2) = true) (hl : l.lookup k = some v) :
    P v = true := by
  induction l with
  | nil => simp [List.lookup] at hl
  | cons p rest ih =>
    rcases p with ⟨a, b⟩
    simp only [List.all_cons, Bool.and_eq_true] at ha
    by_cases hk : (k == a) = true
    · simp only [List.lookup, hk, Option.some.injEq] at hl
      rw [← hl]
      exact ha.1
    · rw [Bool.not_eq_true] at hk
      simp only [List.lookup, hk] at hl
      exact ih ha.2 hl

/-- `getPort` never changes the listeners registry. -/
theorem getPort_listeners (e : Emitter) (ev : String) (p : Nat) (e' : Emitter)
    (h : getPort e ev = .ok (p, e')) : e'.listeners = e.listeners := by
  unfold getPort at h
  split at h
  · exact absurd h (by simp)
  · split at h
    · simp only [Except.ok.injEq, Prod.mk.injEq] at h
      rw [← h.2]
    · simp only [Except.ok.injEq, Prod.mk.injEq] at h
      rw [← h.2]

/-- `getPort` only appends to the events table. -/
theorem getPort_events (e : Emitter) (ev : String) (p : Nat) (e' : Emitter)
    (h : getPort e ev = .ok (p, e')) :
    e'.events = e.events ∨ e'.events = e.events ++ [(ev, p)] := by
  unfold getPort at h
  split at h
  · exact absurd h (by simp)
  · split at h
    · simp only [Except.ok.injEq, Prod.mk.injEq] at h
      exact Or.inl (by rw [← h.2])
    · simp only [Except.ok.injEq, Prod.mk.injEq] at h
      refine Or.inr ?_
      rw [← h.2, ← h.1]

/-- The XOR key stream is its own inverse, position by position. -/
theorem cipherStream_cipherStream (secret cipher : String) (i : Nat) (msg : List Nat) :
    cipherStream secret cipher i (cipherStream secret cipher i msg) = msg := by
  induction msg generalizing i with
  | nil => rfl
  | cons b rest ih =>
    simp only [cipherStream, List.cons.injEq]
    refine ⟨?_, ih (i + 1)⟩
    rw [Nat.xor_assoc, Nat.xor_self, Nat.xor_zero]

/-- Every md5 digest byte (with out-of-range defaulting to 0) is below 256. -/
theorem md5Bytes_getD_lt (msg : List Nat) (i : Nat) : (md5Bytes msg).getD i 0 < 256 := by
  have h : ∀ a b c d : Nat,
      ((le4 a ++ le4 b ++ le4 c ++ le4 d).getD i 0) < 256 := by
    intro a b c d
    simp only [le4, List.cons_append, List.nil_append]
    rcases i with _|_|_|_|_|_|_|_|_|_|_|_|_|_|_|_|i <;>
      simp only [List.getD_cons_zero, List.getD_cons_succ, List.getD_nil] <;> omega
  unfold md5Bytes
  rcases md5Words msg with ⟨a, b, c, d⟩
  exact h a b c d

/-- A key absent from an association list looks up to `none`. -/
theorem lookup_none_of_not_key {β : Type} (l : List (String × β)) (k : String)
    (h : k ∉ l.map Prod.fst) : l.lookup k = none := by
  induction l with
  | nil => rfl
  | cons p rest ih =>
    rcases p with ⟨a, b⟩
    simp only [List.map_cons, List.mem_cons] at h
    push_neg at h
    have hk : (k == a) = false := by
      simp only [beq_eq_false_iff_ne, ne_eq]
      exact h.1
    simp only [List.lookup, hk]
    exact ih h.2

/-- After erasing an event from a duplicate-free registry, its lookup is
`none`. -/
theorem lookup_eraseCh (l : List (String × Channel)) (ev : String)
    (hnd : (l.map Prod.fst).Nodup) : (eraseCh l ev).lookup ev = none := by
  induction l with
  | nil => rfl
  | cons p rest ih =>
    rcases p with ⟨k, c⟩
    simp only [List.map_cons, List.nodup_cons] at hnd
    by_cases hk : k = ev
    · unfold eraseCh
      rw [if_pos hk]
      subst hk
      exact lookup_none_of_not_key rest k hnd.1
    · unfold eraseCh
      rw [if_neg hk]
      have hk' : (ev == k) = false := by
        simp only [beq_eq_false_iff_ne, ne_eq]
        exact fun he => hk he.symm
      simp only [List.lookup, hk']
      exact ih hnd.2

/-- `setHandlers` replaces exactly the handler list the lookup sees. -/
theorem lookup_setHandlers (l : List (String × Channel)) (ev : String)
    (hs : List String) (ch : Channel) (hl : l.lookup ev = some ch) :
    (setHandlers l ev hs).lookup ev = some { ch with handlers := hs } := by
  induction l with
  | nil => exact Option.noConfusion hl
  | cons p rest ih =>
    rcases p with ⟨k, c⟩
    by_cases hk : (ev == k) = true
    · have hk' : k = ev := (beq_iff_eq.mp hk).symm
      simp only [List.lookup, hk, Option.some.injEq] at hl
      unfold setHandlers
      rw [if_pos hk']
      simp only [List.lookup, hk, Option.some.injEq]
      rw [hl]
    · rw [Bool.not_eq_true] at hk
      have hk' : ¬(k = ev) := by
        intro he
        rw [he] at hk
        simp at hk
      simp only [List.lookup, hk] at hl
      unfold setHandlers
      rw [if_neg hk']
      simp only [List.lookup, hk]
      exact ih hl

/-- `setHandlers` with a non-empty replacement preserves the invariant. -/
theorem all_setHandlers (l : List (String × Channel)) (ev : String) (hs : List String)
    (hg : l.all (fun p => chOk p.2) = true) (hhs : hs.isEmpty = false) :
    (setHandlers l ev hs).all (fun p => chOk p.2) = true := by
  induction l with
  | nil => rfl
  | cons p rest ih =>
    rcases p with ⟨k, c⟩
    simp only [List.all_cons, Bool.and_eq_true] at hg
    by_cases hk : k = ev
    · unfold setHandlers
      rw [if_pos hk]
      simp only [List.all_cons, Bool.and_eq_true]
      refine ⟨?_, hg.2⟩
      unfold chOk at hg ⊢
      simp only [hhs, Bool.not_false, Bool.true_and]
      exact (Bool.and_eq_true _ _ |>.mp hg.1).2
    · unfold setHandlers
      rw [if_neg hk]
      simp only [List.all_cons, Bool.and_eq_true]
      exact ⟨hg.1, ih hg.2⟩

/-- Channel creation followed by the first handler push preserves the
invariant: the appended empty channel ends up holding exactly the pushed
handler. -/
theorem all_setHandlers_append (l : List (String × Channel)) (ev h : String)
    (hg : l.all (fun p => chOk p.2) = true) (hn : l.lookup ev = none) :
    (setHandlers (l ++ [(ev, ⟨true, []⟩)]) ev [h]).all (fun p => chOk p.2) = true := by
  induction l with
  | nil => simp [setHandlers, chOk]
  | cons p rest ih =>
    rcases p with ⟨k, c⟩
    simp only [List.all_cons, Bool.and_eq_true] at hg
    by_cases hk : (ev == k) = true
    · simp only [List.lookup, hk] at hn
      exact Option.noConfusion hn
    · rw [Bool.not_eq_true] at hk
      simp only [List.lookup, hk] at hn
      have hk' : ¬(k = ev) := by
        intro he
        rw [he] at hk
        simp at hk
      simp only [List.cons_append]
      unfold setHandlers
      rw [if_neg hk']
      simp only [List.all_cons, Bool.and_eq_true]
      exact ⟨hg.1, ih hg.2 hn⟩

/-- Erasing a channel preserves the invariant. -/
theorem all_eraseCh (l : List (String × Channel)) (ev : String)
    (hg : l.all (fun p => chOk p.2) = true) :
    (eraseCh l ev).all (fun p => chOk p.2) = true := by
  induction l with
  | nil => rfl
  | cons p rest ih =>
    rcases p with ⟨k, c⟩
    simp only [List.all_cons, Bool.and_eq_true] at hg
    by_cases hk : k = ev
    · unfold eraseCh
      rw [if_pos hk]
      exact hg.2
    · unfold eraseCh
      rw [if_neg hk]
      simp only [List.all_cons, Bool.and_eq_true]
      exact ⟨hg.1, ih hg.2⟩

/-- A `fullDefined` call that returns (rather than throws) had a non-empty
event name. -/
theorem fullDefined_ok_event_ne (e : Emitter) (ev : String) (port : Option Nat)
    (d : Option String) (h : fullDefined e ev port = .ok d) : ev ≠ "" := by
  intro he
  subst he
  simp [fullDefined, hasReceiver, Bind.bind, Except.bind] at h

/-- A `getPort` call on a non-empty event name cannot throw. -/
theorem getPort_ok_of_ne (e : Emitter) (ev : String) (er : Err) (hev : ev ≠ "")
    (h : getPort e ev = .error er) : False := by
  unfold getPort at h
  rw [if_neg hev] at h
  split at h <;> exact Except.noConfusion h

/-- The splice loop of `removeListener`, run from index `i` down, filters the
matching handlers out of the first `i` positions and keeps the rest. -/
theorem removeLoop_take_drop (l : String) :
    ∀ (i : Nat) (hs : List String), i ≤ hs.length →
      removeLoop l hs i = (hs.take i).filter (fun x => x != l) ++ hs.drop i := by
  intro i
  induction i with
  | zero => intro hs _; simp [removeLoop]
  | succ i ih =>
    intro hs hi
    have hlt : i < hs.length := hi
    have hget : hs.getD i "" = hs[i] := List.getD_eq_getElem hs "" hlt
    by_cases hm : hs.getD i "" = l
    · rw [removeLoop, if_pos hm]
      have hsp : i ≤ (splice hs i).length := by
        simp only [splice, List.length_append, List.length_take, List.length_drop]
        omega
      rw [ih (splice hs i) hsp]
      have htk : (splice hs i).take i = hs.take i := by
        simp only [splice, List.take_append_eq_append_take, List.length_take]
        have : i - min i hs.length = 0 := by omega
        rw [this]
        simp [List.take_take]
      have hdr : (splice hs i).drop i = hs.drop (i + 1) := by
        simp only [splice, List.drop_append_eq_append_drop, List.length_take]
        have h0 : i - min i hs.length = 0 := by omega
        rw [h0]
        simp [List.drop_take]
      rw [htk, hdr, List.take_succ, List.filter_append]
      have : (hs[i]?.toList).filter (fun x => x != l) = [] := by
        rw [List.getElem?_eq_getElem hlt]
        simp only [Option.toList_some, List.filter_cons, List.filter_nil]
        rw [if_neg]
        simp only [bne_iff_ne, ne_eq, not_not]
        rw [← hget]
        exact hm
      rw [this, List.append_nil]
    · rw [removeLoop, if_neg hm]
      rw [ih hs (Nat.le_of_lt hlt)]
      rw [List.take_succ, List.filter_append]
      have : (hs[i]?.toList).filter (fun x => x != l) = [hs[i]] := by
        rw [List.getElem?_eq_getElem hlt]
        simp only [Option.toList_some, List.filter_cons, List.filter_nil]
        rw [if_pos]
        simp only [bne_iff_ne, ne_eq]
        rw [← hget]
        exact hm
      rw [this]
      rw [List.drop_eq_getElem_cons hlt]
      simp

/-- The whole splice loop equals a filter: every textually matching handler
is removed. -/
theorem removeLoop_eq_filter (l : String) (hs : List String) :
    removeLoop l hs hs.length = hs.filter (fun x => x != l) := by
  have h := removeLoop_take_drop l hs.length hs (Nat.le_refl _)
  simpa using h

/-- Length of the matching-handlers filter. -/
theorem filter_ne_length (h : String) (l : List String) :
    (l.filter (fun x => x != h)).length = l.length - l.count h := by
  induction l with
  | nil => rfl
  | cons a t ih =>
    have hc : t.count h ≤ t.length := List.count_le_length h t
    by_cases ha : a = h
    · subst ha
      simp only [List.filter_cons, bne_self_eq_false, Bool.false_eq_true, if_false,
        List.count_cons_self, List.length_cons, ih]
      omega
    · have hb : (a != h) = true := by
        simp only [bne_iff_ne, ne_eq]
        exact ha
      simp only [List.filter_cons, hb, if_true, List.length_cons, ih,
        List.count_cons, beq_iff_eq, ha, if_false]
      omega

/-- The channel-creation/handler-push tail of `addListener` preserves the
registry invariant (for the non-empty event names the guarded entry point
lets through). -/
theorem goodState_addListenerTail (e : Emitter) (ev h : String) (hev : ev ≠ "")
    (hg : goodStateB e = true) :
    goodStateB (addListener.addListenerTail e ev h).emitter = true := by
  simp only [addListener.addListenerTail]
  split
  · -- the event already has a receiver: push onto the existing channel
    split
    · next ch hch =>
      unfold goodStateB at hg ⊢
      exact all_setHandlers _ _ _ hg (by simp)
    · exact hg
  · next hrec =>
    rw [Bool.not_eq_true] at hrec
    have hnone : e.listeners.lookup ev = none := by
      unfold hasReceiverB at hrec
      exact Option.not_isSome_iff_eq_none.mp (by simp [hrec])
    split
    · next er herr => exact (getPort_ok_of_ne _ ev er hev herr).elim
    · next p e2 hgp =>
      have hls : e2.listeners = e.listeners ++ [(ev, ⟨true, []⟩)] :=
        getPort_listeners _ ev p e2 hgp
      have happ : (e.listeners ++ [(ev, (⟨true, []⟩ : Channel))]).lookup ev =
          some ⟨true, []⟩ := lookup_append_none _ ev _ hnone
      split
      · next ch hch =>
        rw [hls, happ, Option.some.injEq] at hch
        unfold goodStateB
        subst hch
        rw [hls]
        exact all_setHandlers_append _ _ _ hg hnone
      · next hch =>
        rw [hls, happ] at hch
        exact Option.noConfusion hch

/-- `addListener` preserves the registry invariant. -/
theorem goodState_addListener (e : Emitter) (ev h : String)
    (hg : goodStateB e = true) : goodStateB (addListener e ev h).emitter = true := by
  unfold addListener
  split
  · exact hg
  · next d hfd =>
    have hev := fullDefined_ok_event_ne e ev _ d hfd
    split
    · split
      · split
        · next p e1 hgp =>
          unfold goodStateB
          rw [getPort_listeners e ev p e1 hgp]
          exact hg
        · exact hg
      · exact goodState_addListenerTail e ev h hev hg
    · exact goodState_addListenerTail e ev h hev hg

/-- `removeListener` preserves the registry invariant. -/
theorem goodState_removeListener (e : Emitter) (ev h : String)
    (hg : goodStateB e = true) : goodStateB (removeListener e ev h).emitter = true := by
  simp only [removeListener]
  split
  · exact hg
  · split
    · split
      · next ch hch =>
        split
        · exact all_eraseCh _ _ hg
        · next hemp =>
          rw [Bool.not_eq_true] at hemp
          exact all_setHandlers _ _ _ hg hemp
      · exact hg
    · exact hg

/-! ## Claim theorems. -/

/-- **C2**: channel lifecycle invariant.  (1)-(2) every `addListener` and
`removeListener` step preserves the invariant "a channel exists in the
registry iff its handler list is non-empty, and its receive socket is open
iff the channel exists" (`goodStateB`: each present channel has non-empty
handlers and an open socket; the converse directions are structural since
the handler list and socket live inside the channel entry).  (3) under the
invariant, having listeners coincides exactly with having a channel.
(4) the concrete scenario: adding then removing the only handler returns
`hasListeners` to false, drops the multicast membership, closes the socket,
and leaves no channel — the emitter is restored exactly to its initial
state. -/
theorem channel_iff_nonempty_handlers :
    (∀ (e : Emitter) (ev h : String), goodStateB e = true →
        goodStateB (addListener e ev h).emitter = true) ∧
    (∀ (e : Emitter) (ev h : String), goodStateB e = true →
        goodStateB (removeListener e ev h).emitter = true) ∧
    (∀ (e : Emitter) (ev : String), goodStateB e = true →
        hasListenersB e ev = hasReceiverB e ev) ∧
    (mkEmitter (fun _ => false) 0 { events := [("ev", 2000)] } = .ok eOv ∧
     (addListener eOv "ev" "h").err = none ∧
     hasListenersB (addListener eOv "ev" "h").emitter "ev" = true ∧
     removeListener (addListener eOv "ev" "h").emitter "ev" "h" =
       ⟨eOv, [Action.dropMembership "239.22.144.139" "", Action.closeSock], none⟩ ∧
     hasListenersB eOv "ev" = false) := by
  refine ⟨goodState_addListener, goodState_removeListener, ?_, ?_⟩
  · intro e ev hg
    unfold hasListenersB hasReceiverB
    cases hl : e.listeners.lookup ev with
    | none => simp
    | some ch =>
      have hok := all_lookup_val chOk e.listeners ev ch hg hl
      unfold chOk at hok
      simp only [Bool.and_eq_true, Bool.not_eq_true'] at hok
      simp only [Option.isSome_some, decide_eq_true_eq]
      have : ch.handlers ≠ [] := by
        intro hnil
        rw [List.isEmpty_iff.mpr hnil] at hok
        exact Bool.noConfusion hok.1
      exact List.length_pos.mpr this
  · exact ⟨by decide, by decide, by decide, by decide, by decide⟩

/-- Witness for C2 at the concrete override emitter: the invariant survives
an add and the following remove, and listeners/channel existence coincide. -/
theorem channel_iff_nonempty_handlers_witness :
    goodStateB (addListener eOv "ev" "h").emitter = true ∧
    goodStateB (removeListener (addListener eOv "ev" "h").emitter "ev" "h").emitter = true ∧
    hasListenersB eOv "ev" = hasReceiverB eOv "ev" :=
  ⟨channel_iff_nonempty_handlers.1 eOv "ev" "h" (by decide),
   channel_iff_nonempty_handlers.2.1 (addListener eOv "ev" "h").emitter "ev" "h"
     (channel_iff_nonempty_handlers.1 eOv "ev" "h" (by decide)),
   channel_iff_nonempty_handlers.2.2.1 eOv "ev" (by decide)⟩

/-- **C7** (counterexample): register the textually identical handler twice,
call `removeListener` once — the splice loop has no break, so **both**
instances are removed, the list empties and the channel is closed and
deleted; the claim's "exactly one handler instance per call" would leave one
handler and an open channel. -/
theorem remove_removes_both_matching_copies :
    (addListener (addListener eOv "ev" "h").emitter "ev" "h").emitter.listeners =
      [("ev", ⟨true, ["h", "h"]⟩)] ∧
    (removeListener (addListener (addListener eOv "ev" "h").emitter "ev" "h").emitter
        "ev" "h").emitter.listeners.lookup "ev" = none ∧
    hasListenersB (removeListener (addListener (addListener eOv "ev" "h").emitter
        "ev" "h").emitter "ev" "h").emitter "ev" = false := by
  refine ⟨by decide, by decide, by decide⟩

/-- **C7** (amended): one `removeListener(event, handler)` call on a channel
with at least one registered handler removes **every** handler whose
definition string equals the given handler's (the downward splice loop has
no break): when all handlers match, the channel is closed and deleted; when
some handler does not match, the channel survives, its handler list is the
original with all matching instances removed (none of the given handler
remains, and exactly `count` many were removed), in particular exactly one
instance is removed when exactly one matches. -/
theorem removeListener_removes_all_matching (e : Emitter) (ev h : String) (ch : Channel)
    (hnd : (e.listeners.map Prod.fst).Nodup) (hev : ev ≠ "")
    (hl : e.listeners.lookup ev = some ch) (hne : ch.handlers ≠ []) :
    ((∀ x ∈ ch.handlers, x = h) →
      (removeListener e ev h).emitter.listeners.lookup ev = none) ∧
    (¬(∀ x ∈ ch.handlers, x = h) →
      ∃ ch', (removeListener e ev h).emitter.listeners.lookup ev = some ch' ∧
        ch'.handlers = ch.handlers.filter (fun x => x != h) ∧
        ch'.handlers.count h = 0 ∧
        ch'.handlers.length = ch.handlers.length - ch.handlers.count h) := by
  have hlb : hasListenersB e ev = true := by
    unfold hasListenersB
    rw [hl]
    simpa using List.length_pos.mpr hne
  have hrl : removeLoop h ch.handlers ch.handlers.length =
      ch.handlers.filter (fun x => x != h) := removeLoop_eq_filter h ch.handlers
  constructor
  · intro hall
    have hfil : ch.handlers.filter (fun x => x != h) = [] := by
      apply List.filter_eq_nil_iff.mpr
      intro a ha
      simp [hall a ha]
    simp only [removeListener, if_neg hev, hlb, if_true, hl, hrl, hfil,
      List.isEmpty_nil, if_true]
    exact lookup_eraseCh e.listeners ev hnd
  · intro hnall
    push_neg at hnall
    rcases hnall with ⟨x, hx, hxh⟩
    have hfil : ch.handlers.filter (fun y => y != h) ≠ [] := by
      intro hnil
      have hmem : x ∈ ch.handlers.filter (fun y => y != h) :=
        List.mem_filter.mpr ⟨hx, by simpa [bne_iff_ne] using hxh⟩
      rw [hnil] at hmem
      exact List.not_mem_nil x hmem
    have hemp : (ch.handlers.filter (fun y => y != h)).isEmpty = false := by
      cases hh : (ch.handlers.filter (fun y => y != h)).isEmpty
      · rfl
      · exact absurd (List.isEmpty_iff.mp hh) hfil
    refine ⟨{ ch with handlers := ch.handlers.filter (fun y => y != h) }, ?_, rfl, ?_, ?_⟩
    · simp only [removeListener, if_neg hev, hlb, if_true, hl, hrl, hemp,
        Bool.false_eq_true, if_false]
      exact lookup_setHandlers e.listeners ev _ ch hl
    · apply List.count_eq_zero.mpr
      intro hmem
      have := (List.mem_filter.mp hmem).2
      simp at this
    · exact filter_ne_length h ch.handlers

/-- Witness for the amended C7: on the channel holding `h, g, h`, one call
removes both copies of `h` and keeps `g`. -/
theorem removeListener_removes_all_matching_witness :
    ∃ ch', (removeListener eC7w "ev" "h").emitter.listeners.lookup "ev" = some ch' ∧
      ch'.handlers = (["h", "g", "h"] : List String).filter (fun x => x != "h") ∧
      ch'.handlers.count "h" = 0 ∧
      ch'.handlers.length = (["h", "g", "h"] : List String).length -
        (["h", "g", "h"] : List String).count "h" :=
  (removeListener_removes_all_matching eC7w "ev" "h" ⟨true, ["h", "g", "h"]⟩
    (by decide) (by decide) (by decide) (by decide)).2 (by decide)

/-- **C6** (code bug): the spec and the claim say constructing with `ttl=0`
raises a ConfigError, and indeed the constructor's validation clause
`this.ttl < ttlMin` is written to reject it — but `this.ttl` is assigned as
`parseInt(opts.ttl || ttl, 10)` and `0` is falsy, so a `ttl` of 0 silently
falls back to the default 64 and construction succeeds.  `ttl=256` and
`foreignOnly && !loopback` do raise.  This theorem evaluates the constructor
at the failing input `ttl=0` and at the two raising inputs. -/
theorem construct_ttl_zero_silently_defaults :
    (mkEmitter (fun _ => false) 0 { ttl := 0 }).map (fun e => e.ttl) = .ok 64 ∧
    mkEmitter (fun _ => false) 0 { ttl := 256 } = .error .configTtl ∧
    mkEmitter (fun _ => false) 1 { foreignOnly := some true, loopback := some false } =
      .error .configForeignOnly := by
  refine ⟨by decide, by decide, by decide⟩

/-- **C9**: the encryption round-trip law —
`removeCipher(applyCipher(bytes, secret, cipher), secret, cipher) == bytes`
for every byte sequence and secret/cipher pair, and `applyCipher` is the
identity when the secret is unset (the empty string models JS falsiness of
an absent secret).  The cipher primitive itself is `crypto.createCipher`/
`createDecipher`, external to this repository, modelled from the spec as a
keyed symmetric stream cipher; the conditional pass-through structure is
the source's `encrypt`/`decrypt`. -/
theorem cipher_roundtrip_and_identity (bytes : List Nat) (secret cipher : String) :
    decrypt secret cipher (encrypt secret cipher bytes) = bytes ∧
    (secret = "" → encrypt secret cipher bytes = bytes) := by
  constructor
  · unfold encrypt decrypt
    by_cases h : cipher ≠ "" ∧ secret ≠ ""
    · simp only [if_pos h]
      exact cipherStream_cipherStream secret cipher 0 bytes
    · simp only [if_neg h]
  · intro hs
    unfold encrypt
    rw [if_neg]
    intro hc
    exact hc.2 hs

/-- Witness for C9 at a concrete byte sequence, with the secret set and
unset. -/
theorem cipher_roundtrip_and_identity_witness :
    decrypt "pw" "aes256" (encrypt "pw" "aes256" [0, 5, 255, 700]) = [0, 5, 255, 700] ∧
    encrypt "" "aes256" [0, 5, 255, 700] = [0, 5, 255, 700] :=
  ⟨(cipher_roundtrip_and_identity [0, 5, 255, 700] "pw" "aes256").1,
   (cipher_roundtrip_and_identity [0, 5, 255, 700] "" "aes256").2 rfl⟩

/-- **C5**: port derivation is deterministic and cached.  (1) after a
successful `getPort` the state is stable: calling again returns the same
port without re-deriving or changing the events table, so derivation runs at
most once per never-before-seen event name; (2) the derived port is the base
port plus an offset in [0, 32767] built from digest byte 15 (low-order,
0-255) and digest byte 14 mod 128 (high-order multiplier, 0-127);
(3) an explicit override in the events table is returned as-is with no state
change. -/
theorem derivePort_deterministic_cached_bounded :
    (∀ (e : Emitter) (ev : String) (p : Nat) (e' : Emitter),
        getPort e ev = .ok (p, e') → getPort e' ev = .ok (p, e')) ∧
    (∀ (e : Emitter) (ev : String),
        ∃ off, off ≤ 32767 ∧ generatePort e ev = e.port + off) ∧
    (∀ (e : Emitter) (ev : String) (p : Nat), ev ≠ "" →
        e.events.lookup ev = some p → getPort e ev = .ok (p, e)) := by
  refine ⟨?_, ?_, ?_⟩
  · intro e ev p e' h
    unfold getPort at h ⊢
    split at h
    · exact absurd h (by simp)
    · next hev =>
      rw [if_neg hev]
      split at h
      · next q hq =>
        simp only [Except.ok.injEq, Prod.mk.injEq] at h
        rw [← h.2, hq, h.1]
      · next hq =>
        simp only [Except.ok.injEq, Prod.mk.injEq] at h
        rw [← h.2]
        have hlk : (e.events ++ [(ev, generatePort e ev)]).lookup ev =
            some (generatePort e ev) := lookup_append_none _ _ _ hq
        rw [h.1] at hlk ⊢
        simp only [hlk]
  · intro e ev
    refine ⟨(md5Str (e.id ++ "::" ++ e.group ++ "::" ++ ev)).getD 15 0 +
      256 * ((md5Str (e.id ++ "::" ++ e.group ++ "::" ++ ev)).getD 14 0 % 128), ?_, ?_⟩
    · have h15 : (md5Str (e.id ++ "::" ++ e.group ++ "::" ++ ev)).getD 15 0 < 256 :=
        md5Bytes_getD_lt _ 15
      omega
    · simp only [generatePort]
      omega
  · intro e ev p hev hl
    unfold getPort
    rw [if_neg hev]
    simp only [hl]

/-- A successfully constructed emitter's address is `addressOf` of the
defaulted group and octet options — construction determines the address from
those two options alone. -/
theorem mk_ok_address (nics : String → Bool) (c : Nat) (o : Opts) (e : Emitter)
    (h : mkEmitter nics c o = .ok e) :
    e.address = addressOf (if o.group = "" then "events" else o.group)
        (if o.octet = 0 then 239 else o.octet) := by
  simp only [mkEmitter] at h
  split_ifs at h
  all_goals injection h with h
  all_goals subst h
  all_goals try dsimp only
  all_goals refine congrArg₂ addressOf ?_ ?_
  all_goals first | rfl | simp [*]

/-- **C4** (counterexample): for the group identifier `"g257"` — which is not
a multicast address — digest byte index 1 of md5 is 0, so the **third**
octet of the derived address is 0.  The 0/255 fix-up applies only to digest
byte index 2, which becomes the *fourth* octet; this refutes the claim that
"the produced third octet of the address is never 0 or 255". -/
theorem derived_address_third_octet_zero :
    isMulticastAddress "g257" = false ∧
    mkEmitter (fun _ => false) 0 { group := "g257" } = .ok eC4 ∧
    ((splitOnDot eC4.address.data).map (fun cs => String.mk cs)).getD 2 "" = "0" := by
  refine ⟨by decide, by decide, by decide⟩

/-- **C4** (amended): the derived address is deterministic — it depends only
on the (defaulted) group and first octet, so independently constructed
instances with the same group and octet agree; for a non-multicast group the
address is the dot-joined `deriveOctets`, whose **fourth** octet (digest
byte index 2, the only one the 0/255 fix-up applies to) is never 0 and never
255.  (The third octet, digest byte index 1, is not adjusted and can be 0 or
255, as the counterexample shows.) -/
theorem address_deterministic_fourth_octet_never_reserved :
    (∀ (nics : String → Bool) (c : Nat) (o : Opts) (e : Emitter),
        mkEmitter nics c o = .ok e →
        e.address = addressOf (if o.group = "" then "events" else o.group)
          (if o.octet = 0 then 239 else o.octet)) ∧
    (∀ (n1 n2 : String → Bool) (c1 c2 : Nat) (o1 o2 : Opts) (e1 e2 : Emitter),
        o1.group = o2.group → o1.octet = o2.octet →
        mkEmitter n1 c1 o1 = .ok e1 → mkEmitter n2 c2 o2 = .ok e2 →
        e1.address = e2.address) ∧
    (∀ (g : String) (oc : Nat), isMulticastAddress g = false →
        addressOf g oc = String.intercalate "."
          ((deriveOctets g oc).map (fun n => toString n))) ∧
    (∀ (g : String) (oc : Nat),
        (deriveOctets g oc).getD 3 0 ≠ 0 ∧ (deriveOctets g oc).getD 3 0 ≠ 255) := by
  refine ⟨mk_ok_address, ?_, ?_, ?_⟩
  · intro n1 n2 c1 c2 o1 o2 e1 e2 hg ho h1 h2
    rw [mk_ok_address n1 c1 o1 e1 h1, mk_ok_address n2 c2 o2 e2 h2, hg, ho]
  · intro g oc hm
    unfold addressOf
    rw [if_neg (by simp [hm])]
  · intro g oc
    simp only [deriveOctets, List.getD_cons_succ, List.getD_cons_zero]
    split
    · exact ⟨by omega, by omega⟩
    · next hcond =>
      push_neg at hcond
      exact ⟨hcond.1, hcond.2⟩

/-- Witness for the amended C4 at concrete inputs: the default construction's
address, the derived form for group `"g257"`, equality of addresses across
two differently-named constructions, and the fourth-octet fact for the
default group. -/
theorem address_deterministic_fourth_octet_never_reserved_witness :
    eDefault.address = addressOf "events" 239 ∧
    eDefA.address = eDefault.address ∧
    addressOf "g257" 239 = String.intercalate "."
      ((deriveOctets "g257" 239).map (fun n => toString n)) ∧
    ((deriveOctets "events" 239).getD 3 0 ≠ 0 ∧
      (deriveOctets "events" 239).getD 3 0 ≠ 255) :=
  ⟨address_deterministic_fourth_octet_never_reserved.1 (fun _ => false) 0 {}
      eDefault (by decide),
   address_deterministic_fourth_octet_never_reserved.2.1 (fun _ => true) (fun _ => false)
      7 0 { name := "A" } {} eDefA eDefault rfl rfl (by decide) (by decide),
   address_deterministic_fourth_octet_never_reserved.2.2.1 "g257" 239 (by decide),
   address_deterministic_fourth_octet_never_reserved.2.2.2 "events" 239⟩

/-- Witness for C5: deriving the default `event-name` port gives the README
value 30618 and caches it; the cached state is a fixed point of `getPort`. -/
theorem derivePort_deterministic_cached_bounded_witness :
    getPort eC5cached "event-name" = .ok (30618, eC5cached) ∧
    getPort eC5cached "event-name" = .ok (30618, eC5cached) := by
  have h := derivePort_deterministic_cached_bounded.1 eDefault "event-name" 30618
    eC5cached (by decide)
  exact ⟨h, derivePort_deterministic_cached_bounded.2.2 eC5cached "event-name" 30618
    (by decide) (by decide)⟩

/-- **C8**: a protocol mismatch — the decoded event name differs from the
receiving channel's event name — is scoped to the offending datagram:
dispatch returns the mismatch error and invokes no handler (the source
consults the handler list only after the name check passes), the
per-channel `processMessage` flag is unchanged, and the registry is
untouched (the message callback only reads `this.listeners`, which is why
the model of the callback returns no emitter state); a subsequent
well-formed datagram on the same channel is dispatched to every registered
handler in order. -/
theorem protocol_mismatch_scoped_to_datagram
    (selfPid : Nat) (e : Emitter) (event name : String)
    (msg msg2 : List Nat) (args args2 : List String) (ch : Channel)
    (h1 : msg.head? ≠ some 64)
    (h2 : unpack (decrypt e.secret e.cipher msg) = some (name :: args))
    (h3 : name ≠ event)
    (h4 : msg2.head? ≠ some 64)
    (h5 : unpack (decrypt e.secret e.cipher msg2) = some (event :: args2))
    (h6 : e.listeners.lookup event = some ch) :
    onMessage selfPid e event true msg =
      (true, some (.error (.protocolMismatch event name))) ∧
    onMessage selfPid e event true msg2 =
      (true, some (.ok (ch.handlers.map (fun h => ⟨h, args2⟩)))) := by
  have h3' : ¬(event = name) := fun hh => h3 hh.symm
  constructor
  · simp [onMessage, handleEvent, h1, h2, h3']
  · simp [onMessage, handleEvent, h4, h5, h6]

/-- Witness for C8: a datagram decoding to `"other"` on the `"test"` channel
errors without invoking the two handlers; one decoding to `"test"` reaches
both, in order. -/
theorem protocol_mismatch_scoped_to_datagram_witness :
    onMessage 42 eC8 "test" true (pack ["other", "x"]) =
      (true, some (.error (.protocolMismatch "test" "other"))) ∧
    onMessage 42 eC8 "test" true (pack ["test", "y"]) =
      (true, some (.ok [⟨"h1", ["y"]⟩, ⟨"h2", ["y"]⟩])) :=
  protocol_mismatch_scoped_to_datagram 42 eC8 "test" "other"
    (pack ["other", "x"]) (pack ["test", "y"]) ["x"] ["y"] ⟨true, ["h1", "h2"]⟩
    (by decide) (by decide) (by decide) (by decide) (by decide) (by decide)

/-- **C3** (code bug evaluation): `var processMessage = true` is declared in
the bind callback, **outside** the per-datagram `message` handler, so the
flag persists between datagrams.  After a datagram tagged with the
receiver's own pid is (correctly) discarded, the flag is left `false`, and
the next datagram that carries **no origin tag** — which the claim says must
be decrypted, decoded and dispatched — is silently discarded as well: the
tag branch never runs for it, so the flag is never reset.  The final
conjunct shows the same untagged datagram is dispatched when the flag is
fresh, i.e. the datagram itself is well-formed. -/
theorem foreign_filter_flag_leaks_across_datagrams :
    mkEmitter (fun _ => false) 0 { foreignOnly := some true } = .ok eC3base ∧
    (addListener eC3base "test" "h1").err = none ∧
    (addListener eC3base "test" "h1").emitter = eC3 ∧
    onMessage 42 eC3 "test" true (emitData eC3 42 "test" ["a"]) = (false, none) ∧
    onMessage 42 eC3 "test"
      (onMessage 42 eC3 "test" true (emitData eC3 42 "test" ["a"])).1
      (pack ["test", "b"]) = (false, none) ∧
    onMessage 42 eC3 "test" true (pack ["test", "b"]) =
      (true, some (.ok [⟨"h1", ["b"]⟩])) := by
  refine ⟨by decide, by decide, by decide, by decide, by decide, by decide⟩

/-- **C1** (code bug evaluation): with event `"a"` active (one handler,
bound to its overridden port 2000), `addListener("b", h2)` — where `"b"`'s
overridden port is also 2000 — is required by the claim to fail with a
port-collision error and leave state unchanged.  The code instead succeeds:
`fullDefined(event, ...)` tests `hasReceiver`/`hasListeners` of the event
being **added** (which has none yet), not of the event already owning the
port — contradicting `fullDefined`'s own doc comment ("the already
registered event with the specified UDP port **if it has at least a
listener**").  So no error is raised, a channel for `"b"` is created, and
its socket is bound to the same port 2000 as `"a"`'s. -/
theorem addListener_port_collision_not_detected :
    mkEmitter (fun _ => false) 0 optsC1 = .ok eC1 ∧
    (addListener eC1 "a" "h1").err = none ∧
    (addListener (addListener eC1 "a" "h1").emitter "b" "h2").err = none ∧
    (addListener (addListener eC1 "a" "h1").emitter "b" "h2").emitter.listeners =
      [("a", ⟨true, ["h1"]⟩), ("b", ⟨true, ["h2"]⟩)] ∧
    (addListener (addListener eC1 "a" "h1").emitter "b" "h2").acts =
      [Action.bindSock 2000 "239.22.144.139", Action.setTTL 64,
       Action.addMembership "239.22.144.139" "", Action.setLoopback true] ∧
    eC1.events.lookup "a" = some 2000 ∧ eC1.events.lookup "b" = some 2000 := by
  refine ⟨by decide, by decide, by decide, by decide, by decide, by decide, by decide⟩

/-- **C10**: the multicast-address syntax check is an unanchored substring
match: `'x239.1.1.1'` is not itself a syntactically valid multicast address
(anchored spec notion), yet the constructor classifies it as one and uses
the whole group string verbatim as the emitter's destination address,
instead of deriving octets from its hash. -/
theorem group_substring_multicast_used_verbatim :
    isMulticastAddress "x239.1.1.1" = true ∧
    specIsMulticastAddress "x239.1.1.1" = false ∧
    (mkEmitter (fun _ => false) 0 { group := "x239.1.1.1" }).map (fun e => e.address) =
      .ok "x239.1.1.1" := by
  refine ⟨by decide, by decide, by decide⟩

end MulticastEvents

